import Mathlib

/-!
Verification development for the `site-crawler` repository.

The Python sources are shallowly embedded: each Lean definition mirrors one
function of the repository (file and line references are given in the doc
comments).  Machine reals used by the code (load times, scores) are embedded
as `ℚ`; Python exceptions are embedded as `Except`; the mutable
`self.visited_urls` set is threaded explicitly as a list of URLs.
-/

namespace StrUtil

/-- Boolean test that the first character list is an initial segment of the
second; used to embed Python's `str.startswith`. -/
def isPrefixL : List Char → List Char → Bool
  | [], _ => true
  | _ :: _, [] => false
  | c :: cs, d :: ds => c = d && isPrefixL cs ds

/-- Embeds Python's `haystack.startswith(needle)`. -/
def startsWith (s pat : String) : Bool :=
  isPrefixL pat.toList s.toList

/-- Occurrence of `needle` as a contiguous sublist of the second list. -/
def containsSub (needle : List Char) : List Char → Bool
  | [] => needle.isEmpty
  | c :: rest => isPrefixL needle (c :: rest) || containsSub needle rest

/-- Embeds Python's substring test `needle in hay` (the empty string is a
substring of everything, as in Python). -/
def py_in (needle hay : String) : Bool :=
  containsSub needle.toList hay.toList

/-- Splits a character list at every occurrence of the character `sep`,
like Python's `str.split(sep)`: `"/blog/post"` on `'/'` gives
`["", "blog", "post"]`. -/
def splitOnChar (sep : Char) : List Char → List (List Char)
  | [] => [[]]
  | c :: rest =>
    let r := splitOnChar sep rest
    if c = sep then [] :: r
    else
      match r with
      | t :: ts => (c :: t) :: ts
      | [] => [[c]]

/-- Splits a character list at every maximal nonempty run of characters
satisfying `p`, keeping empty pieces at the borders; this is the behaviour
of Python's `re.split` on a character-class-plus pattern such as
`[.!?]+`. -/
def splitRuns (p : Char → Bool) : List Char → List (List Char)
  | [] => [[]]
  | c :: rest =>
    let r := splitRuns p rest
    if p c then
      match rest with
      | c2 :: _ => if p c2 then r else [] :: r
      | [] => [] :: r
    else
      match r with
      | t :: ts => (c :: t) :: ts
      | [] => [[c]]

/-- Splits a string before the first occurrence of character `c`, returning
the part before and the part after (the marker itself dropped); the second
component is empty when `c` does not occur.  Used to strip `#fragment` and
`?query` parts of a URL. -/
def splitOnce (c : Char) : List Char → List Char × List Char
  | [] => ([], [])
  | d :: rest =>
    if d = c then ([], rest)
    else
      let (a, b) := splitOnce c rest
      (d :: a, b)

/-- Finds the first `"://"` in a character list, returning the part before
and the part after it; `none` when the marker is absent.  Used to split off
the URL scheme. -/
def findSchemeMark : List Char → Option (List Char × List Char)
  | [] => none
  | ':' :: '/' :: '/' :: rest => some ([], rest)
  | c :: rest =>
    match findSchemeMark rest with
    | some (a, b) => some (c :: a, b)
    | none => none

end StrUtil

namespace UrlModel

open StrUtil

/-- Result of splitting a URL string into its five components, mirroring
the tuple produced by Python's `urllib.parse.urlsplit` for the URL shapes
that occur in this repository (an empty component stands for an absent
one). -/
structure UrlSplit where
  scheme : String
  netloc : String
  path : String
  query : String
  fragment : String
deriving Repr, DecidableEq

/-- Modelled from Python's `urllib.parse.urlsplit`, restricted to the URL
shapes arising in this repository: an absolute URL is `scheme://netloc`
followed by an optional `/path`, `?query` and `#fragment`; a reference
without `://` has empty scheme and netloc and everything before `?`/`#` is
its path. -/
def urlsplitStr (s : String) : UrlSplit :=
  let cs := s.toList
  let (beforeFrag, frag) := splitOnce '#' cs
  let (beforeQuery, query) := splitOnce '?' beforeFrag
  match findSchemeMark beforeQuery with
  | some (sch, rest) =>
    let netloc := rest.takeWhile (fun c => ¬ c = '/')
    let path := rest.dropWhile (fun c => ¬ c = '/')
    ⟨⟨sch⟩, ⟨netloc⟩, ⟨path⟩, ⟨query⟩, ⟨frag⟩⟩
  | none =>
    ⟨"", "", ⟨beforeQuery⟩, ⟨query⟩, ⟨frag⟩⟩

/-- Renders the five URL components back into a string, inverse of
`urlsplitStr` on the shapes used here (empty query/fragment render as
absent), mirroring `urllib.parse.urlunsplit`. -/
def renderUrl (u : UrlSplit) : String :=
  (if u.scheme = "" then "" else u.scheme ++ "://") ++ u.netloc ++ u.path ++
    (if u.query = "" then "" else "?" ++ u.query) ++
    (if u.fragment = "" then "" else "#" ++ u.fragment)

/-- Resolution loop of `urllib.parse.urljoin`: folds the path segments,
popping the previous segment on `".."` (never popping the leading empty
segment of an absolute path) and skipping `"."`. -/
def resolveSegs (acc : List String) : List String → List String
  | [] => acc
  | seg :: rest =>
    if seg = ".." then
      resolveSegs (if 2 ≤ acc.length then acc.dropLast else acc) rest
    else if seg = "." then resolveSegs acc rest
    else resolveSegs (acc ++ [seg]) rest

/-- Splits a path string into its `/`-separated segments. -/
def pathSegs (p : String) : List String :=
  (splitOnChar '/' p.toList).map (fun l => ⟨l⟩)

/-- Modelled from Python's `urllib.parse.urljoin` (CPython's RFC 3986
resolution), restricted to the reference shapes used in this repository:
an empty reference returns the base unchanged; a reference with a scheme
different from the base's is returned unchanged; a reference with a netloc
replaces authority and path; otherwise the reference path is resolved
against the base path (`".."`/`"."` segments removed), an empty reference
path keeps the base path, and the reference's fragment always wins. -/
def urljoin (base url : String) : String :=
  if base = "" then url
  else if url = "" then base
  else
    let b := urlsplitStr base
    let r := urlsplitStr url
    if ¬ r.scheme = "" ∧ ¬ r.scheme = b.scheme then url
    else if ¬ r.netloc = "" then
      renderUrl { r with scheme := b.scheme }
    else if r.path = "" then
      let q := if r.query = "" then b.query else r.query
      renderUrl { b with query := q, fragment := r.fragment }
    else
      let segs :=
        if startsWith r.path "/" then pathSegs r.path
        else (pathSegs b.path).dropLast ++ pathSegs r.path
      let resolved := resolveSegs [] segs
      let resolved :=
        if segs.getLast? = some "." ∨ segs.getLast? = some ".." then
          resolved ++ [""]
        else resolved
      let pathStr := String.intercalate "/" resolved
      let pathStr := if pathStr = "" then "/" else pathStr
      renderUrl ⟨b.scheme, b.netloc, pathStr, r.query, r.fragment⟩

/-- Modelled from the third-party `validators.url` predicate, restricted to
the URL shapes arising in this development: an absolute `http`/`https` URL
with a dotted, nonempty host is accepted (paths, queries and fragments are
allowed and unconstrained). -/
def validators_url (s : String) : Bool :=
  let u := urlsplitStr s
  (u.scheme = "http" || u.scheme = "https") && ¬ u.netloc = "" && py_in "." u.netloc

end UrlModel

namespace RobotsParser

/-- Abstract robots.txt policy: the decision procedure of a successfully
loaded `urllib.robotparser.RobotFileParser`; `check agent url` may itself
fail (raise), which the embedding records as `Except.error`. -/
structure Policy where
  check : String → String → Except String Bool

/-- Embeds `RobotsParser.initialize_parser` (src/utils/robots_parser.py
lines 14-23): a successful load keeps the parsed policy, any fetch/parse
failure leaves the parser unset (`self.parser = None`). -/
def initParser (load : Except String Policy) : Option Policy :=
  match load with
  | .ok p => some p
  | .error _ => none

/-- Embeds `RobotsParser.can_fetch` (src/utils/robots_parser.py lines
25-33): with no loaded policy the answer is `true`; a policy that raises
while deciding also yields `true`; otherwise the policy's decision is
returned. -/
def can_fetch (parser : Option Policy) (url : String) (agent : String) : Bool :=
  match parser with
  | none => true
  | some p =>
    match p.check agent url with
    | .ok b => b
    | .error _ => true

end RobotsParser

namespace SEOCrawler

open StrUtil UrlModel

/-- Crawler configuration and per-run state that is fixed during a crawl,
mirroring the fields of `SEOCrawler.__init__` (src/seo_crawler.py lines
25-40) that the crawl logic reads: `base_url`, the maximum depth
(`self.depth`), the `ignore_robots` flag and the robots parser state.  The
timeout and user-agent fields only parametrise the HTTP request and are
absorbed into the abstract fetch function. -/
structure Crawler where
  base_url : String
  depth : Nat
  ignore_robots : Bool
  robots : Option RobotsParser.Policy

/-- Abstract content of one fetched page: the `href` attributes of its
anchor tags, which is the only part of the fetched document the crawl
recursion inspects (the analyzer payloads are modelled separately at the
analyzer layer). -/
structure PageData where
  hrefs : List String
deriving Repr, DecidableEq

/-- Abstract network: what `get_page_content` (src/seo_crawler.py lines
48-54) returns for each URL during one run; `Except.error e` embeds the
request raising an exception with message `e`. -/
def World := String → Except String PageData

/-- Embeds `SEOCrawler.is_valid_url` (src/seo_crawler.py lines 42-46):
the URL passes the `validators.url` check and has the same network
location as the crawler's base URL. -/
def is_valid_url (base url : String) : Bool :=
  validators_url url && (urlsplitStr url).netloc = (urlsplitStr base).netloc

/-- Embeds `SEOCrawler.extract_links` (src/seo_crawler.py lines 56-64):
every anchor `href` is resolved against the current URL with `urljoin` and
kept exactly when `is_valid_url` accepts the resolved absolute URL. -/
def extract_links (base : String) (hrefs : List String) (current_url : String) :
    List String :=
  match hrefs with
  | [] => []
  | h :: rest =>
    let absolute_url := urljoin current_url h
    if is_valid_url base absolute_url then
      absolute_url :: extract_links base rest current_url
    else
      extract_links base rest current_url

/-- The dictionary returned by `SEOCrawler.analyze_page`; each field is
`none` when the corresponding key is absent from the Python dict.  The
three analyzer payloads are abstracted to `Unit` (their values are studied
at the analyzer layer); what matters here is which keys are present. -/
structure PageResult where
  url : Option String := none
  depth : Option Nat := none
  seo_metrics : Option Unit := none
  performance_metrics : Option Unit := none
  content_metrics : Option Unit := none
  links : Option (List String) := none
  error : Option String := none
deriving Repr, DecidableEq

/-- The empty dict `{}` returned on the skip paths of `analyze_page`. -/
def PageResult.empty : PageResult := {}

instance : Inhabited PageResult := ⟨PageResult.empty⟩

/-- Sequentialisation of the crawl recursion of `SEOCrawler.analyze_page`
(src/seo_crawler.py lines 66-109).  `crawl_list c w depth urls visited`
runs `analyze_page` over the pending `urls` at depth `depth` in order,
threading the shared `self.visited_urls` state and returning the produced
records, the final visited list and the trace of URLs passed to
`get_page_content` (in invocation order).  Each URL is handled exactly as
in the source: the depth/visited guard (line 68), the robots guard (line
71), insertion into the visited set (line 75), the fetch (line 78), link
extraction (line 87), the child dispatch over the extracted links not yet
visited (lines 99-103) — whose records the source never attaches anywhere,
as here — and the exception path (lines 107-109).  The executor's
`link not in self.visited_urls` filter coincides with the guard re-checked
at line 68 and the two collapse in this sequential model. -/
def crawl_list (c : Crawler) (w : World) (depth : Nat) (urls : List String)
    (visited : List String) : List PageResult × List String × List String :=
  match urls with
  | [] => ([], visited, [])
  | url :: rest =>
    if depth > c.depth ∨ url ∈ visited then
      let (rs, v1, log1) := crawl_list c w depth rest visited
      (PageResult.empty :: rs, v1, log1)
    else if ¬ c.ignore_robots ∧ ¬ RobotsParser.can_fetch c.robots url "*" then
      let (rs, v1, log1) := crawl_list c w depth rest visited
      (PageResult.empty :: rs, v1, log1)
    else
      let v1 := url :: visited
      match w url with
      | .error e =>
        let (rs, v2, log2) := crawl_list c w depth rest v1
        ({ url := some url, error := some e } :: rs, v2, url :: log2)
      | .ok pd =>
        let links := extract_links c.base_url pd.hrefs url
        let (_, v2, clog) := crawl_list c w (depth + 1) links v1
        let (rs, v3, rlog) := crawl_list c w depth rest v2
        ({ url := some url, depth := some depth, seo_metrics := some (),
           performance_metrics := some (), content_metrics := some (),
           links := some links } :: rs, v3, url :: clog ++ rlog)
termination_by (c.depth + 1 - depth, urls.length)
decreasing_by
  all_goals simp_wf
  all_goals first
    | (apply Prod.Lex.left; omega)
    | (apply Prod.Lex.right; omega)

/-- Embeds one call of `SEOCrawler.analyze_page` (src/seo_crawler.py lines
66-109) as the singleton case of `crawl_list`: the record it returns, the
updated visited set and the trace of fetched URLs. -/
def analyze_page (c : Crawler) (w : World) (url : String) (depth : Nat)
    (visited : List String) : PageResult × List String × List String :=
  let (rs, v, log) := crawl_list c w depth [url] visited
  (rs.headI, v, log)

/-- Embeds `SEOCrawler.crawl` (src/seo_crawler.py lines 111-115):
`analyze_page` on the base URL at depth 0 with an empty visited set.  The
first component is `self.results`; the trace component records every URL
fetched during the run. -/
def crawl (c : Crawler) (w : World) : PageResult × List String × List String :=
  analyze_page c w c.base_url 0 []

end SEOCrawler

namespace SEOAnalyzer

open StrUtil

/-- Heading census of a page: the number of `<h1>` … `<h6>` tags, i.e. the
`headings` dict built by `SEOAnalyzer.analyze_headings`
(src/analyzers/seo_analyzer.py lines 29-41). -/
structure HeadingCount where
  h1 : Nat
  h2 : Nat
  h3 : Nat
  h4 : Nat
  h5 : Nat
  h6 : Nat
deriving Repr, DecidableEq

/-- Lookup `headings[f'h{i}']` for levels 1-6. -/
def hget (h : HeadingCount) : Nat → Nat
  | 1 => h.h1
  | 2 => h.h2
  | 3 => h.h3
  | 4 => h.h4
  | 5 => h.h5
  | 6 => h.h6
  | _ => 0

/-- Message appended for a skipped heading level. -/
def skipMsg (last i : Nat) : String :=
  "Skipped heading level: h" ++ toString last ++ " to h" ++ toString i

/-- Embeds `SEOAnalyzer._check_heading_structure`
(src/analyzers/seo_analyzer.py lines 76-93): the missing/multiple H1
checks, then the loop over levels 2-6 carrying `last_level` (initially 1),
appending a skip message when level `i` is populated while level
`last_level` is empty, and moving `last_level` to each populated level. -/
def check_heading_structure (h : HeadingCount) : List String :=
  let issues : List String :=
    if hget h 1 = 0 then ["Missing H1 tag"]
    else if hget h 1 > 1 then ["Multiple H1 tags"]
    else []
  let step := fun (st : Nat × List String) (i : Nat) =>
    let last := st.1
    let iss := st.2
    let iss :=
      if hget h i > 0 ∧ hget h last = 0 then iss ++ [skipMsg last i] else iss
    let last := if hget h i > 0 then i else last
    (last, iss)
  ([2, 3, 4, 5, 6].foldl step (1, issues)).2

/-- Embeds the classification loop of `SEOAnalyzer.analyze_links`
(src/analyzers/seo_analyzer.py lines 60-67), returning the pair
(internal links, external links) in page order: hrefs that start with `#`
or are empty are skipped; an href that starts with `http` and does not
contain the current URL as a substring goes to the external list; every
other href goes to the internal list. -/
def links_partition (current_url : String) : List String → List String × List String
  | [] => ([], [])
  | href :: rest =>
    let (ints, exts) := links_partition current_url rest
    if startsWith href "#" = true ∨ href = "" then (ints, exts)
    else if startsWith href "http" = true ∧ py_in current_url href = false then
      (ints, href :: exts)
    else (href :: ints, exts)

/-- The dict returned by `SEOAnalyzer.analyze_links`
(src/analyzers/seo_analyzer.py lines 69-74). -/
structure LinkMetrics where
  total_links : Nat
  internal_links : Nat
  external_links : Nat
  broken_links : List String
deriving Repr, DecidableEq

/-- Embeds `SEOAnalyzer.analyze_links` (src/analyzers/seo_analyzer.py
lines 54-74) on the list of `href` attributes of the page's anchors. -/
def analyze_links (hrefs : List String) (current_url : String) : LinkMetrics :=
  let p := links_partition current_url hrefs
  ⟨hrefs.length, p.1.length, p.2.length, []⟩

end SEOAnalyzer

namespace ContentAnalyzer

open StrUtil

/-- The sentence-ending characters of the `re.split(r'[.!?]+', text)`
pattern in `ContentAnalyzer._split_into_sentences`. -/
def isSentenceEnd (c : Char) : Bool :=
  c = '.' || c = '!' || c = '?'

/-- Word characters of the regex class `\w` (ASCII range, which covers the
texts considered here): letters, digits and underscore. -/
def isWordChar (c : Char) : Bool :=
  c.isAlphanum || c = '_'

/-- Embeds `ContentAnalyzer._split_into_sentences`
(src/analyzers/content_analyzer.py lines 82-84):
`re.split(r'[.!?]+', text)`. -/
def split_into_sentences (text : String) : List String :=
  (splitRuns isSentenceEnd text.toList).map (fun l => ⟨l⟩)

/-- Embeds `ContentAnalyzer._split_into_words`
(src/analyzers/content_analyzer.py lines 86-88):
`re.findall(r'\b\w+\b', text)`, the maximal nonempty runs of word
characters. -/
def split_into_words (text : String) : List String :=
  ((splitRuns (fun c => !isWordChar c) text.toList).filter
      (fun l => !l.isEmpty)).map (fun l => ⟨l⟩)

/-- ASCII lower-casing of one character, embedding the effect of Python's
`str.lower` on the word characters considered here. -/
def charLower (c : Char) : Char :=
  if 'A' ≤ c ∧ c ≤ 'Z' then Char.ofNat (c.toNat + 32) else c

/-- The vowels `'aeiouy'` of `ContentAnalyzer._count_syllables`. -/
def isVowel (c : Char) : Bool :=
  c = 'a' || c = 'e' || c = 'i' || c = 'o' || c = 'u' || c = 'y'

/-- Scan of `ContentAnalyzer._count_syllables`' loop over indices 1..:
adds one for every vowel whose predecessor is not a vowel. -/
def syllScan (prev : Char) (acc : Nat) : List Char → Nat
  | [] => acc
  | c :: rest =>
    syllScan c (if isVowel c ∧ ¬ isVowel prev then acc + 1 else acc) rest

/-- Embeds `ContentAnalyzer._count_syllables`
(src/analyzers/content_analyzer.py lines 90-104): lower-case the word,
count vowel-group starts (the first character counting when it is a
vowel), subtract one for a trailing `'e'`, and floor the count at one.
The Python code indexes `word[0]` and so requires a nonempty word (as the
words produced by `_split_into_words` always are); the empty word is
mapped to the floor value 1. -/
def count_syllables (word : String) : Nat :=
  match word.toList.map charLower with
  | [] => 1
  | c :: rest =>
    let base := if isVowel c then 1 else 0
    let n := syllScan c base rest
    let n := if (c :: rest).getLast? = some 'e' then n - 1 else n
    if n = 0 then 1 else n

/-- Embeds the `flesch_score` computation of
`ContentAnalyzer.analyze_readability`
(src/analyzers/content_analyzer.py lines 36-54) over exact rationals:
`avg_sentence_length = len(words)/len(sentences)` when there are
sentences (else 0), `avg_syllables_per_word = syllables/len(words)` when
there are words (else 0), and
`206.835 - 1.015*avg_sentence_length - 84.6*avg_syllables_per_word`.
The reported `flesch_reading_ease` dict entry is this value rounded to
two decimal places for display. -/
def flesch_score (text : String) : ℚ :=
  let sentences := split_into_sentences text
  let words := split_into_words text
  let syllables := (words.map count_syllables).sum
  let avg_sentence_length : ℚ :=
    if sentences.length ≠ 0 then (words.length : ℚ) / (sentences.length : ℚ) else 0
  let avg_syllables_per_word : ℚ :=
    if words.length ≠ 0 then (syllables : ℚ) / (words.length : ℚ) else 0
  206.835 - 1.015 * avg_sentence_length - 84.6 * avg_syllables_per_word

end ContentAnalyzer

namespace PerformanceAnalyzer

/-- Embeds `PerformanceAnalyzer._calculate_performance_score`
(src/analyzers/performance_analyzer.py lines 29-39), the fixed score
ladder over the load time in seconds. -/
def calculate_performance_score (load_time : ℚ) : ℚ :=
  if load_time ≤ 1.0 then 1.0
  else if load_time ≤ 2.5 then 0.8
  else if load_time ≤ 4.0 then 0.6
  else if load_time ≤ 6.0 then 0.4
  else 0.2

/-- The dict returned by `PerformanceAnalyzer.analyze_load_time`
(src/analyzers/performance_analyzer.py lines 12-17). -/
structure LoadTimeMetrics where
  load_time_seconds : ℚ
  load_time_acceptable : Bool
  performance_score : ℚ
deriving Repr, DecidableEq

/-- Embeds `PerformanceAnalyzer.analyze_load_time`
(src/analyzers/performance_analyzer.py lines 12-17): the load time
itself, the `< 3.0` acceptability threshold, and the ladder score. -/
def analyze_load_time (load_time : ℚ) : LoadTimeMetrics :=
  ⟨load_time, decide (load_time < 3.0), calculate_performance_score load_time⟩

end PerformanceAnalyzer

namespace CrawlExamples

open SEOCrawler

/-- A concrete crawler configuration for the concrete-run theorems: base
URL `https://ex.com`, maximum depth 3, robots checks disabled. -/
def exCrawler : Crawler :=
  { base_url := "https://ex.com", depth := 3, ignore_robots := true, robots := none }

/-- A concrete two-page site: the base page links to `/a`, the page
`https://ex.com/a` has no links, everything else fails to fetch. -/
def exWorld : World := fun u =>
  if u = "https://ex.com" then .ok ⟨["/a"]⟩
  else if u = "https://ex.com/a" then .ok ⟨[]⟩
  else .error "404"

/-- A network on which every fetch raises with message `"boom"`. -/
def exWorldFail : World := fun _ => .error "boom"

end CrawlExamples

namespace SEOCrawler

/-- Unfolding of `crawl_list` on an empty pending list. -/
theorem crawl_list_nil (c : Crawler) (w : World) (depth : Nat) (v : List String) :
    crawl_list c w depth [] v = ([], v, []) := by
  unfold crawl_list
  rfl

/-- Unfolding of `crawl_list` when the depth/visited guard of line 68
fires: an empty record, nothing fetched, state untouched. -/
theorem crawl_list_skip (c : Crawler) (w : World) (depth : Nat) (url : String)
    (rest : List String) (v : List String) (h : depth > c.depth ∨ url ∈ v) :
    crawl_list c w depth (url :: rest) v =
      (PageResult.empty :: (crawl_list c w depth rest v).1,
       (crawl_list c w depth rest v).2) := by
  rw [crawl_list.eq_def]
  rcases hres : crawl_list c w depth rest v with ⟨rs, v1, log1⟩
  simp only [hres, if_pos h]

/-- Unfolding of `crawl_list` when the robots guard of line 71 fires. -/
theorem crawl_list_robots (c : Crawler) (w : World) (depth : Nat) (url : String)
    (rest : List String) (v : List String) (h : ¬ (depth > c.depth ∨ url ∈ v))
    (hr : ¬ c.ignore_robots = true ∧ ¬ RobotsParser.can_fetch c.robots url "*" = true) :
    crawl_list c w depth (url :: rest) v =
      (PageResult.empty :: (crawl_list c w depth rest v).1,
       (crawl_list c w depth rest v).2) := by
  rw [crawl_list.eq_def]
  rcases hres : crawl_list c w depth rest v with ⟨rs, v1, log1⟩
  simp only [hres, if_neg h, if_pos hr]

/-- Unfolding of `crawl_list` when the fetch raises (lines 107-109). -/
theorem crawl_list_error (c : Crawler) (w : World) (depth : Nat) (url : String)
    (rest : List String) (v : List String) (e : String)
    (h : ¬ (depth > c.depth ∨ url ∈ v))
    (hr : ¬ (¬ c.ignore_robots = true ∧ ¬ RobotsParser.can_fetch c.robots url "*" = true))
    (hw : w url = .error e) :
    crawl_list c w depth (url :: rest) v =
      ({ url := some url, error := some e } :: (crawl_list c w depth rest (url :: v)).1,
       (crawl_list c w depth rest (url :: v)).2.1,
       url :: (crawl_list c w depth rest (url :: v)).2.2) := by
  rw [crawl_list.eq_def]
  rcases hres : crawl_list c w depth rest (url :: v) with ⟨rs, v2, log2⟩
  simp only [hres, if_neg h, if_neg hr, hw]

/-- Unfolding of `crawl_list` when the fetch succeeds (lines 78-105). -/
theorem crawl_list_ok (c : Crawler) (w : World) (depth : Nat) (url : String)
    (rest : List String) (v : List String) (pd : PageData)
    (h : ¬ (depth > c.depth ∨ url ∈ v))
    (hr : ¬ (¬ c.ignore_robots = true ∧ ¬ RobotsParser.can_fetch c.robots url "*" = true))
    (hw : w url = .ok pd) :
    crawl_list c w depth (url :: rest) v =
      ({ url := some url, depth := some depth, seo_metrics := some (),
         performance_metrics := some (), content_metrics := some (),
         links := some (extract_links c.base_url pd.hrefs url) } ::
         (crawl_list c w depth rest
           (crawl_list c w (depth + 1) (extract_links c.base_url pd.hrefs url)
             (url :: v)).2.1).1,
       (crawl_list c w depth rest
         (crawl_list c w (depth + 1) (extract_links c.base_url pd.hrefs url)
           (url :: v)).2.1).2.1,
       url :: (crawl_list c w (depth + 1) (extract_links c.base_url pd.hrefs url)
           (url :: v)).2.2 ++
         (crawl_list c w depth rest
           (crawl_list c w (depth + 1) (extract_links c.base_url pd.hrefs url)
             (url :: v)).2.1).2.2) := by
  rw [crawl_list.eq_def]
  rcases hc : crawl_list c w (depth + 1) (extract_links c.base_url pd.hrefs url)
      (url :: v) with ⟨cs, v2, clog⟩
  rcases hrest : crawl_list c w depth rest v2 with ⟨rs, v3, rlog⟩
  simp only [hc, hrest, if_neg h, if_neg hr, hw]

/-- The visited set after a crawl step is exactly the fetched URLs (in
reverse fetch order, since line 75 adds each URL on fetching it) on top of
the previous visited set. -/
theorem crawl_list_visited_eq (c : Crawler) (w : World) (depth : Nat)
    (urls v : List String) :
    (crawl_list c w depth urls v).2.1 = (crawl_list c w depth urls v).2.2.reverse ++ v := by
  induction depth, urls, v using crawl_list.induct c w with
  | case1 d v => simp [crawl_list_nil]
  | case2 d v seg rest h rs v1 log1 hres ih =>
    rw [crawl_list_skip c w d seg rest v h]
    simpa using ih
  | case3 d v seg rest h hr rs v1 log1 hres ih =>
    rw [crawl_list_robots c w d seg rest v h hr]
    simpa using ih
  | case4 d v seg rest h hr v1 e hw rs v2 log2 hres ih =>
    rw [crawl_list_error c w d seg rest v e h hr hw]
    simp only [List.reverse_cons, List.append_assoc, List.singleton_append]
    simpa using ih
  | case5 d v seg rest h hr v1 pd hw links cs cv clog hc rs rv rlog hrest ih1 ih2 =>
    simp only [links, v1] at hc ih1
    rw [crawl_list_ok c w d seg rest v pd h hr hw]
    rw [hc] at ih1 ⊢
    simp only at ih1 ⊢
    simp only [List.reverse_cons, List.reverse_append, List.append_assoc,
      List.singleton_append]
    rw [ih2, ih1]

/-- The fetch trace of a crawl step never repeats a URL and never touches
a URL that was already in the visited set when the step started. -/
theorem crawl_list_log_fresh (c : Crawler) (w : World) (depth : Nat)
    (urls v : List String) :
    (crawl_list c w depth urls v).2.2.Nodup ∧
      ∀ u ∈ (crawl_list c w depth urls v).2.2, u ∉ v := by
  induction depth, urls, v using crawl_list.induct c w with
  | case1 d v => simp [crawl_list_nil]
  | case2 d v seg rest h rs v1 log1 hres ih =>
    rw [crawl_list_skip c w d seg rest v h]
    simpa using ih
  | case3 d v seg rest h hr rs v1 log1 hres ih =>
    rw [crawl_list_robots c w d seg rest v h hr]
    simpa using ih
  | case4 d v seg rest h hr v1 e hw rs v2 log2 hres ih =>
    rw [crawl_list_error c w d seg rest v e h hr hw]
    simp only [List.nodup_cons, List.mem_cons]
    have hfresh := ih.2
    have hseg : seg ∉ v := fun hs => h (Or.inr hs)
    refine ⟨⟨fun hm => ?_, ih.1⟩, ?_⟩
    · exact (hfresh seg hm) (List.mem_cons_self _ _)
    · rintro u (rfl | hu)
      · exact hseg
      · intro huv
        exact (hfresh u hu) (List.mem_cons_of_mem _ huv)
  | case5 d v seg rest h hr v1 pd hw links cs cv clog hc rs rv rlog hrest ih1 ih2 =>
    simp only [links, v1] at hc ih1
    have hcv : cv = clog.reverse ++ seg :: v := by
      have := crawl_list_visited_eq c w (d + 1)
        (extract_links c.base_url pd.hrefs seg) (seg :: v)
      rw [hc] at this
      exact this
    rw [crawl_list_ok c w d seg rest v pd h hr hw]
    rw [hc]
    simp only at ih2 ⊢
    have hclog := ih1
    rw [hc] at hclog
    simp only at hclog
    have hseg : seg ∉ v := fun hs => h (Or.inr hs)
    have hsegc : seg ∉ clog := by
      intro hm
      exact (hclog.2 seg hm) (List.mem_cons_self _ _)
    have hsegr : seg ∉ (crawl_list c w d rest cv).2.2 := by
      intro hm
      apply ih2.2 seg hm
      rw [hcv]
      exact List.mem_append_right _ (List.mem_cons_self _ _)
    have hdisj : clog.Disjoint (crawl_list c w d rest cv).2.2 := by
      intro a ha hb
      apply ih2.2 a hb
      rw [hcv]
      exact List.mem_append_left _ (List.mem_reverse.2 ha)
    refine ⟨?_, ?_⟩
    · have hnd : (clog ++ (crawl_list c w d rest cv).2.2).Nodup := by
        rw [List.nodup_append]
        exact ⟨hclog.1, ih2.1, hdisj⟩
      refine List.nodup_cons.2 ⟨?_, hnd⟩
      intro hm
      rcases List.mem_append.1 hm with hm1 | hm1
      · exact hsegc hm1
      · exact hsegr hm1
    · rintro u hu
      rcases List.mem_cons.1 hu with rfl | hu2
      · exact hseg
      · rcases List.mem_append.1 hu2 with hm | hm
        · intro huv
          exact (hclog.2 u hm) (List.mem_cons_of_mem _ huv)
        · intro huv
          apply ih2.2 u hm
          rw [hcv]
          exact List.mem_append_right _ (List.mem_cons_of_mem _ huv)

end SEOCrawler

open SEOCrawler in
/-- C1: within one crawl run no URL is dispatched to `get_page_content`
more than once.  `analyze_page` fetches a URL only if it is not already in
the visited set and inserts it before fetching, so the fetch trace of any
call is duplicate-free, disjoint from the incoming visited set, and the
final visited set is exactly the fetched URLs added to the incoming
ones. -/
theorem C1_each_url_fetched_at_most_once (c : Crawler) (w : World)
    (url : String) (depth : Nat) (visited : List String) :
    (analyze_page c w url depth visited).2.2.Nodup ∧
      (∀ u ∈ (analyze_page c w url depth visited).2.2, u ∉ visited) ∧
      (analyze_page c w url depth visited).2.1 =
        (analyze_page c w url depth visited).2.2.reverse ++ visited := by
  have h1 := crawl_list_log_fresh c w depth [url] visited
  have h2 := crawl_list_visited_eq c w depth [url] visited
  exact ⟨h1.1, h1.2, h2⟩

open SEOCrawler CrawlExamples in
/-- C1 witness: on the concrete two-page site the crawl's fetch trace is
duplicate-free. -/
theorem C1_each_url_fetched_at_most_once_witness :
    (analyze_page exCrawler exWorld "https://ex.com" 0 []).2.2.Nodup :=
  (C1_each_url_fetched_at_most_once exCrawler exWorld "https://ex.com" 0 []).1

open SEOCrawler CrawlExamples in
/-- C2: on a site whose base page links to a same-domain child page, the
child is fetched and analyzed (it appears in the fetch trace), yet the
result returned by `crawl` is the root's record alone: the child
contributes no attached record anywhere in the output, only its URL string
inside the root's `links` list.  The futures created at lines 99-103 of
src/seo_crawler.py are discarded, so no child `PageRecord` is ever
attached under its parent. -/
theorem C2_child_records_never_attached :
    crawl exCrawler exWorld =
      ({ url := some "https://ex.com", depth := some 0, seo_metrics := some (),
         performance_metrics := some (), content_metrics := some (),
         links := some ["https://ex.com/a"] },
       ["https://ex.com/a", "https://ex.com"],
       ["https://ex.com", "https://ex.com/a"]) := by
  have hx : extract_links "https://ex.com" ["/a"] "https://ex.com" =
      ["https://ex.com/a"] := by decide
  have hx2 : extract_links "https://ex.com" ([] : List String) "https://ex.com/a" = [] := by
    decide
  simp [crawl, analyze_page, crawl_list, exCrawler, exWorld, hx, hx2]

open SEOCrawler in
/-- C3: `analyze_page` called with a depth greater than the configured
maximum returns the empty no-op record, fetches nothing and leaves the
visited set untouched, so no `PageRecord` is produced beyond the depth
bound. -/
theorem C3_depth_exceeded_noop (c : Crawler) (w : World) (url : String)
    (depth : Nat) (v : List String) (h : depth > c.depth) :
    analyze_page c w url depth v = (PageResult.empty, v, []) := by
  unfold analyze_page
  rw [crawl_list_skip c w depth url [] v (Or.inl h), crawl_list_nil]
  rfl

open SEOCrawler CrawlExamples in
/-- C3 witness: depth 4 exceeds the configured maximum 3, and the call is
a no-op. -/
theorem C3_depth_exceeded_noop_witness :
    4 > exCrawler.depth ∧
      analyze_page exCrawler exWorld "https://ex.com" 4 [] =
        (PageResult.empty, [], []) :=
  ⟨by decide, C3_depth_exceeded_noop exCrawler exWorld "https://ex.com" 4 [] (by decide)⟩

open SEOCrawler CrawlExamples in
/-- C4 counterexample: at a URL whose fetch raises, the record returned by
`analyze_page` carries only `url` and `error`; in particular its `depth`
key is absent, contradicting the claim that exactly `url`, `depth` and
`error` are populated. -/
theorem C4_claim_false_error_record_lacks_depth :
    exWorldFail "https://ex.com" = Except.error "boom" ∧
    (analyze_page exCrawler exWorldFail "https://ex.com" 0 []).1 =
      { url := some "https://ex.com", error := some "boom" } ∧
    (analyze_page exCrawler exWorldFail "https://ex.com" 0 []).1.depth = none := by
  refine ⟨rfl, ?_, ?_⟩ <;>
    simp [analyze_page, crawl_list, exCrawler, exWorldFail]

open SEOCrawler in
/-- C4 (amended): when the fetch of a URL raises, `analyze_page` returns
the record with exactly `url` and `error` populated, performs no child
recursion (its fetch trace is the failing URL alone), and a failing URL
inside a pending list leaves the processing of the remaining URLs
unchanged. -/
theorem C4_error_record_url_error_only (c : Crawler) (w : World)
    (url : String) (rest : List String) (depth : Nat) (v : List String)
    (e : String) (hd : ¬ depth > c.depth) (hv : url ∉ v)
    (hrob : c.ignore_robots = true ∨ RobotsParser.can_fetch c.robots url "*" = true)
    (hw : w url = .error e) :
    (analyze_page c w url depth v).1 = { url := some url, error := some e } ∧
    (analyze_page c w url depth v).2.2 = [url] ∧
    crawl_list c w depth (url :: rest) v =
      ({ url := some url, error := some e } :: (crawl_list c w depth rest (url :: v)).1,
       (crawl_list c w depth rest (url :: v)).2.1,
       url :: (crawl_list c w depth rest (url :: v)).2.2) := by
  have hg : ¬ (depth > c.depth ∨ url ∈ v) := by
    rintro (h1 | h2)
    · exact hd h1
    · exact hv h2
  have hrr : ¬ (¬ c.ignore_robots = true ∧
      ¬ RobotsParser.can_fetch c.robots url "*" = true) := by
    rintro ⟨a, b⟩
    rcases hrob with h1 | h1
    · exact a h1
    · exact b h1
  refine ⟨?_, ?_, crawl_list_error c w depth url rest v e hg hrr hw⟩
  · unfold analyze_page
    rw [crawl_list_error c w depth url [] v e hg hrr hw, crawl_list_nil]
    rfl
  · unfold analyze_page
    rw [crawl_list_error c w depth url [] v e hg hrr hw, crawl_list_nil]

open SEOCrawler CrawlExamples in
/-- C4 witness: on the all-failing network the base URL's record carries
exactly `url` and `error`, and only that one fetch happens. -/
theorem C4_error_record_url_error_only_witness :
    (analyze_page exCrawler exWorldFail "https://ex.com" 0 []).1 =
      { url := some "https://ex.com", error := some "boom" } ∧
    (analyze_page exCrawler exWorldFail "https://ex.com" 0 []).2.2 =
      ["https://ex.com"] :=
  ⟨(C4_error_record_url_error_only exCrawler exWorldFail "https://ex.com" [] 0 [] "boom"
      (by decide) (by decide) (Or.inl rfl) rfl).1,
   (C4_error_record_url_error_only exCrawler exWorldFail "https://ex.com" [] 0 [] "boom"
      (by decide) (by decide) (Or.inl rfl) rfl).2.1⟩

open SEOCrawler in
/-- C5 counterexample: `extract_links` does not drop a pure in-page
fragment href: `"#top"` on page `https://ex.com/blog/post` resolves to
`https://ex.com/blog/post#top`, which passes validation and the domain
filter and is returned, contradicting the claim that such anchors are
dropped. -/
theorem C5_claim_false_fragment_href_kept :
    extract_links "https://ex.com" ["#top"] "https://ex.com/blog/post" =
      ["https://ex.com/blog/post#top"] := by decide

open SEOCrawler in
/-- C5 (amended): `extract_links` keeps empty and fragment-only hrefs —
an empty href resolves to the current URL itself and `"#top"` to the
current URL plus fragment, both same-domain and kept — while
`"../about"` on `https://ex.com/blog/post` resolves to
`https://ex.com/about` and `https://other.com/x` is excluded by the
domain filter. -/
theorem C5_extract_links_resolution :
    extract_links "https://ex.com" ["", "#top", "../about", "https://other.com/x"]
        "https://ex.com/blog/post" =
      ["https://ex.com/blog/post", "https://ex.com/blog/post#top",
       "https://ex.com/about"] := by decide

/-- C6: a heading census with one `h1`, no `h2` and one `h3` — a genuinely
skipped level — produces no issue at all from
`_check_heading_structure`: the loop's skip condition tests the count at
`last_level`, which is populated whenever it is not level 1, so the skip
message can only ever fire when `h1` is missing.  This contradicts the
claim (and the code's own comment) that such a census is flagged as a
skipped level. -/
theorem C6_skipped_level_not_flagged :
    SEOAnalyzer.check_heading_structure ⟨1, 0, 1, 0, 0, 0⟩ = [] := by decide

/-- C7: the robots gate returns a total Boolean (the embedding wraps the
underlying parser's possible exception in `Except`, and `can_fetch` maps
it to a permissive answer), is `true` whenever loading the policy failed,
and is `false` exactly when a successfully loaded policy explicitly
answers `false`. -/
theorem C7_robots_gate_permissive (load : Except String RobotsParser.Policy)
    (url agent e : String) :
    RobotsParser.can_fetch (RobotsParser.initParser (Except.error e)) url agent = true ∧
      (RobotsParser.can_fetch (RobotsParser.initParser load) url agent = false ↔
        ∃ p, load = Except.ok p ∧ p.check agent url = Except.ok false) := by
  constructor
  · rfl
  · cases load with
    | error e2 => simp [RobotsParser.initParser, RobotsParser.can_fetch]
    | ok p =>
      cases hc : p.check agent url with
      | error e2 => simp [RobotsParser.initParser, RobotsParser.can_fetch, hc]
      | ok b =>
        cases b <;> simp [RobotsParser.initParser, RobotsParser.can_fetch, hc]

/-- C7 witness: after a failed robots.txt load the gate permits a concrete
URL. -/
theorem C7_robots_gate_permissive_witness :
    RobotsParser.can_fetch (RobotsParser.initParser (Except.error "net down"))
      "https://ex.com/a" "*" = true :=
  (C7_robots_gate_permissive (Except.error "net down") "https://ex.com/a" "*" "net down").1

/-- Summing a function that is constantly one over a list counts it. -/
theorem sum_map_one {α : Type} (f : α → Nat) (l : List α)
    (h : ∀ x ∈ l, f x = 1) : (l.map f).sum = l.length := by
  induction l with
  | nil => rfl
  | cons a rest ih =>
    simp [h a (List.mem_cons_self _ _),
      ih (fun x hx => h x (List.mem_cons_of_mem _ hx))]
    omega

/-- C8: for a single-sentence text — one for which the code's sentence
splitter returns exactly one piece, i.e. the text has no `.`/`!`/`?`
characters (a trailing terminator would add an empty second piece) — of
`N ≥ 1` words each counted as one syllable by the code's counter, the
computed Flesch score equals `206.835 - 1.015 * N - 84.6 * 1`, the
formula at `avg_sentence_length = N` and `avg_syllables_per_word = 1`. -/
theorem C8_flesch_single_sentence_formula (text : String) (N : Nat)
    (hsent : (ContentAnalyzer.split_into_sentences text).length = 1)
    (hN : (ContentAnalyzer.split_into_words text).length = N)
    (hpos : 0 < N)
    (hsyll : ∀ w ∈ ContentAnalyzer.split_into_words text,
      ContentAnalyzer.count_syllables w = 1) :
    ContentAnalyzer.flesch_score text = 206.835 - 1.015 * (N : ℚ) - 84.6 * 1 := by
  have hsum : ((ContentAnalyzer.split_into_words text).map
      ContentAnalyzer.count_syllables).sum = N := by
    rw [sum_map_one _ _ hsyll, hN]
  have hN0 : (N : ℚ) ≠ 0 := Nat.cast_ne_zero.mpr (by omega)
  simp only [ContentAnalyzer.flesch_score, hsent, hsum, hN]
  norm_num [div_self hN0]
  omega

/-- C8 witness: on the two-word one-syllable text `"cat dog"` the score is
the formula value at `N = 2`. -/
theorem C8_flesch_single_sentence_formula_witness :
    0 < 2 ∧ ContentAnalyzer.flesch_score "cat dog" =
      206.835 - 1.015 * (2 : ℚ) - 84.6 * 1 :=
  ⟨by norm_num,
   C8_flesch_single_sentence_formula "cat dog" 2 (by decide) (by decide)
     (by norm_num) (by decide)⟩

/-- C9: the performance score follows the fixed ladder — 1.0 up to one
second, 0.8 up to 2.5 s, 0.6 up to 4 s, 0.4 up to 6 s, 0.2 beyond — and
`load_time_acceptable` holds exactly below three seconds. -/
theorem C9_performance_score_ladder (t : ℚ) :
    (t ≤ 1 → (PerformanceAnalyzer.analyze_load_time t).performance_score = 1) ∧
    (1 < t ∧ t ≤ 2.5 →
      (PerformanceAnalyzer.analyze_load_time t).performance_score = 0.8) ∧
    (2.5 < t ∧ t ≤ 4 →
      (PerformanceAnalyzer.analyze_load_time t).performance_score = 0.6) ∧
    (4 < t ∧ t ≤ 6 →
      (PerformanceAnalyzer.analyze_load_time t).performance_score = 0.4) ∧
    (6 < t → (PerformanceAnalyzer.analyze_load_time t).performance_score = 0.2) ∧
    ((PerformanceAnalyzer.analyze_load_time t).load_time_acceptable = true ↔ t < 3) := by
  have e1 : (1.0 : ℚ) = 1 := by norm_num
  have e25 : (2.5 : ℚ) = 5 / 2 := by norm_num
  have e4 : (4.0 : ℚ) = 4 := by norm_num
  have e6 : (6.0 : ℚ) = 6 := by norm_num
  have e3 : (3.0 : ℚ) = 3 := by norm_num
  unfold PerformanceAnalyzer.analyze_load_time PerformanceAnalyzer.calculate_performance_score
  simp only [decide_eq_true_eq, e1, e25, e4, e6, e3]
  refine ⟨fun h => ?_, fun h => ?_, fun h => ?_, fun h => ?_, fun h => ?_, trivial⟩
  · rw [if_pos h]
  · rw [if_neg (by rcases h with ⟨h1, h2⟩; linarith),
      if_pos (by rcases h with ⟨h1, h2⟩; linarith)]
  · rw [if_neg (by rcases h with ⟨h1, h2⟩; linarith),
      if_neg (by rcases h with ⟨h1, h2⟩; linarith),
      if_pos (by rcases h with ⟨h1, h2⟩; linarith)]
  · rw [if_neg (by rcases h with ⟨h1, h2⟩; linarith),
      if_neg (by rcases h with ⟨h1, h2⟩; linarith),
      if_neg (by rcases h with ⟨h1, h2⟩; linarith),
      if_pos (by rcases h with ⟨h1, h2⟩; linarith)]
  · rw [if_neg (by linarith), if_neg (by linarith), if_neg (by linarith),
      if_neg (by linarith)]

/-- C9 witness: a load time of two seconds scores 0.8 and is
acceptable. -/
theorem C9_performance_score_ladder_witness :
    (1 < (2 : ℚ) ∧ (2 : ℚ) ≤ 2.5) ∧
    (PerformanceAnalyzer.analyze_load_time 2).performance_score = 0.8 ∧
    (PerformanceAnalyzer.analyze_load_time 2).load_time_acceptable = true :=
  ⟨⟨by norm_num, by norm_num⟩,
   (C9_performance_score_ladder 2).2.1 ⟨by norm_num, by norm_num⟩,
   (C9_performance_score_ladder 2).2.2.2.2.2.mpr (by norm_num)⟩

/-- Membership in the two lists built by the link-classification loop of
`analyze_links`: a processable href lands in the external list exactly
when it is in the input and satisfies the external condition, and in the
internal list exactly when it is in the input and does not. -/
theorem links_partition_mem (current href : String)
    (hfrag : StrUtil.startsWith href "#" = false) (hne : href ≠ "") :
    ∀ hrefs : List String,
      (href ∈ (SEOAnalyzer.links_partition current hrefs).2 ↔
        href ∈ hrefs ∧
          (StrUtil.startsWith href "http" = true ∧ StrUtil.py_in current href = false)) ∧
      (href ∈ (SEOAnalyzer.links_partition current hrefs).1 ↔
        href ∈ hrefs ∧
          ¬ (StrUtil.startsWith href "http" = true ∧ StrUtil.py_in current href = false)) := by
  intro hrefs
  induction hrefs with
  | nil => simp [SEOAnalyzer.links_partition]
  | cons a rest ih =>
    have hne2 : ¬ (href = a ∧ (StrUtil.startsWith a "#" = true ∨ a = "")) := by
      rintro ⟨rfl, h | h⟩
      · rw [hfrag] at h
        cases h
      · exact hne h
    rcases hp : SEOAnalyzer.links_partition current rest with ⟨ints, exts⟩
    rw [hp] at ih
    simp only at ih
    simp only [SEOAnalyzer.links_partition, hp]
    by_cases h1 : StrUtil.startsWith a "#" = true ∨ a = ""
    · rw [if_pos h1]
      simp only [List.mem_cons]
      constructor
      · rw [ih.1]
        constructor
        · rintro ⟨hm, hc⟩
          exact ⟨Or.inr hm, hc⟩
        · rintro ⟨rfl | hm, hc⟩
          · exact absurd ⟨rfl, h1⟩ hne2
          · exact ⟨hm, hc⟩
      · rw [ih.2]
        constructor
        · rintro ⟨hm, hc⟩
          exact ⟨Or.inr hm, hc⟩
        · rintro ⟨rfl | hm, hc⟩
          · exact absurd ⟨rfl, h1⟩ hne2
          · exact ⟨hm, hc⟩
    · rw [if_neg h1]
      by_cases h2 : StrUtil.startsWith a "http" = true ∧ StrUtil.py_in current a = false
      · rw [if_pos h2]
        simp only [List.mem_cons]
        constructor
        · constructor
          · rintro (rfl | hm)
            · exact ⟨Or.inl rfl, h2⟩
            · rcases ih.1.mp hm with ⟨hm2, hc⟩
              exact ⟨Or.inr hm2, hc⟩
          · rintro ⟨rfl | hm, hc⟩
            · exact Or.inl rfl
            · exact Or.inr (ih.1.mpr ⟨hm, hc⟩)
        · rw [ih.2]
          constructor
          · rintro ⟨hm, hc⟩
            exact ⟨Or.inr hm, hc⟩
          · rintro ⟨rfl | hm, hc⟩
            · exact absurd h2 hc
            · exact ⟨hm, hc⟩
      · rw [if_neg h2]
        simp only [List.mem_cons]
        constructor
        · rw [ih.1]
          constructor
          · rintro ⟨hm, hc⟩
            exact ⟨Or.inr hm, hc⟩
          · rintro ⟨rfl | hm, hc⟩
            · exact absurd hc h2
            · exact ⟨hm, hc⟩
        · constructor
          · rintro (rfl | hm)
            · exact ⟨Or.inl rfl, h2⟩
            · rcases ih.2.mp hm with ⟨hm2, hc⟩
              exact ⟨Or.inr hm2, hc⟩
          · rintro ⟨rfl | hm, hc⟩
            · exact Or.inl rfl
            · exact Or.inr (ih.2.mpr ⟨hm, hc⟩)

/-- C10: in the SEO link census, an anchor href that is nonempty and does
not start with `#` is classified as external exactly when it starts with
`http` and the full current URL string is not a substring of it, and as
internal otherwise. -/
theorem C10_external_link_classification (current : String)
    (hrefs : List String) (href : String) (hmem : href ∈ hrefs)
    (hfrag : StrUtil.startsWith href "#" = false) (hne : href ≠ "") :
    (href ∈ (SEOAnalyzer.links_partition current hrefs).2 ↔
      (StrUtil.startsWith href "http" = true ∧ StrUtil.py_in current href = false)) ∧
    (href ∈ (SEOAnalyzer.links_partition current hrefs).1 ↔
      ¬ (StrUtil.startsWith href "http" = true ∧ StrUtil.py_in current href = false)) := by
  have h := links_partition_mem current href hfrag hne hrefs
  constructor
  · rw [h.1]
    exact ⟨fun hp => hp.2, fun hc => ⟨hmem, hc⟩⟩
  · rw [h.2]
    exact ⟨fun hp => hp.2, fun hc => ⟨hmem, hc⟩⟩

/-- C10 witness: an absolute link to another page of the same host that
does not contain the current URL is counted as external. -/
theorem C10_external_link_classification_witness :
    "https://ex.com/about" ∈
      (SEOAnalyzer.links_partition "https://ex.com/blog/post"
        ["https://ex.com/about"]).2 :=
  (C10_external_link_classification "https://ex.com/blog/post"
      ["https://ex.com/about"] "https://ex.com/about"
      (by decide) (by decide) (by decide)).1.mpr ⟨by decide, by decide⟩
